import Mathlib

/-!
Verification of the ModelSync versioning core (`modelsync/core/versioning.py`,
`modelsync/utils/helpers.py`, `modelsync/config.py`) against its natural-language
specification.

The Python code is shallowly embedded: the repository's persisted state
(control directory, config, HEAD, branch heads, object store, staging index)
becomes an explicit `RepoState` record, every operation becomes a pure state
transformer, and `hashlib.sha256(...).hexdigest()` is implemented bit-faithfully
over byte lists.  `json.dumps(..., sort_keys=True)` (used for hashing) and
`json.dump(..., indent=2, ensure_ascii=False)` (used by `write_json_file` for
persistence) are embedded as separate serializers, since the two produce
different bytes for the same data.
-/

namespace ModelSync

/-! ## SHA-256 (`hashlib.sha256(content).hexdigest()`) -/

/-- Truncate to a 32-bit word. -/
def w32 (n : Nat) : Nat := n % 4294967296

/-- Right rotation of a 32-bit word. -/
def rotr (n x : Nat) : Nat := w32 ((x >>> n) ||| (x <<< (32 - n)))

/-- SHA-256 round constants (FIPS 180-4 K values, written in decimal). -/
def K256 : List Nat :=
  [1116352408, 1899447441, 3049323471, 3921009573, 961987163, 1508970993,
   2453635748, 2870763221, 3624381080, 310598401, 607225278, 1426881987,
   1925078388, 2162078206, 2614888103, 3248222580, 3835390401, 4022224774,
   264347078, 604807628, 770255983, 1249150122, 1555081692, 1996064986,
   2554220882, 2821834349, 2952996808, 3210313671, 3336571891, 3584528711,
   113926993, 338241895, 666307205, 773529912, 1294757372, 1396182291,
   1695183700, 1986661051, 2177026350, 2456956037, 2730485921, 2820302411,
   3259730800, 3345764771, 3516065817, 3600352804, 4094571909, 275423344,
   430227734, 506948616, 659060556, 883997877, 958139571, 1322822218,
   1537002063, 1747873779, 1955562222, 2024104815, 2227730452, 2361852424,
   2428436474, 2756734187, 3204031479, 3329325298]

/-- Working state: eight 32-bit words. -/
structure Sha8 where
  a : Nat
  b : Nat
  c : Nat
  d : Nat
  e : Nat
  f : Nat
  g : Nat
  h : Nat
  deriving DecidableEq

/-- SHA-256 initial hash value (FIPS 180-4 H0, written in decimal). -/
def sha256Init : Sha8 :=
  ⟨1779033703, 3144134277, 1013904242, 2773480762,
   1359893119, 2600822924, 528734635, 1541459225⟩

/-- Group a 64-byte block into sixteen big-endian 32-bit words. -/
def toWords : List Nat → List Nat
  | b0 :: b1 :: b2 :: b3 :: rest =>
      (b0 * 16777216 + b1 * 65536 + b2 * 256 + b3) :: toWords rest
  | _ => []

/-- Small sigma 0. -/
def ssig0 (x : Nat) : Nat := rotr 7 x ^^^ rotr 18 x ^^^ (x >>> 3)

/-- Small sigma 1. -/
def ssig1 (x : Nat) : Nat := rotr 17 x ^^^ rotr 19 x ^^^ (x >>> 10)

/-- Extend the sixteen message words to the 64-entry message schedule. -/
def extendW (w : List Nat) : List Nat :=
  (List.range 48).foldl
    (fun acc _ =>
      let i := acc.length
      acc ++ [w32 (ssig1 (acc.getD (i - 2) 0) + acc.getD (i - 7) 0 +
                   ssig0 (acc.getD (i - 15) 0) + acc.getD (i - 16) 0)])
    w

/-- One SHA-256 compression round; `kw` pairs the round constant with the schedule word. -/
def sha256Round (st : Sha8) (kw : Nat × Nat) : Sha8 :=
  let S1 := rotr 6 st.e ^^^ rotr 11 st.e ^^^ rotr 25 st.e
  let ch := (st.e &&& st.f) ^^^ ((st.e ^^^ 0xffffffff) &&& st.g)
  let t1 := w32 (st.h + S1 + ch + kw.1 + kw.2)
  let S0 := rotr 2 st.a ^^^ rotr 13 st.a ^^^ rotr 22 st.a
  let maj := (st.a &&& st.b) ^^^ (st.a &&& st.c) ^^^ (st.b &&& st.c)
  let t2 := w32 (S0 + maj)
  ⟨w32 (t1 + t2), st.a, st.b, st.c, w32 (st.d + t1), st.e, st.f, st.g⟩

/-- Compress one 64-byte block into the running state. -/
def sha256Block (st : Sha8) (block : List Nat) : Sha8 :=
  let ws := extendW (toWords block)
  let r := (K256.zip ws).foldl sha256Round st
  ⟨w32 (st.a + r.a), w32 (st.b + r.b), w32 (st.c + r.c), w32 (st.d + r.d),
   w32 (st.e + r.e), w32 (st.f + r.f), w32 (st.g + r.g), w32 (st.h + r.h)⟩

/-- Big-endian 8-byte encoding of a length (in bits). -/
def lenBE8 (n : Nat) : List Nat :=
  (List.range 8).map (fun i => (n >>> (8 * (7 - i))) % 256)

/-- SHA-256 padding: 0x80, zeros to 56 mod 64, then the 64-bit bit length. -/
def padMsg (msg : List Nat) : List Nat :=
  let len := msg.length
  msg ++ 0x80 :: (List.replicate ((119 - len % 64) % 64) 0 ++ lenBE8 (8 * len))

/-- Split a byte list into 64-byte chunks (structural recursion on a length bound,
so it reduces in the kernel; the bound `l.length` always suffices since each
step consumes at least one byte). -/
def chunksGo : Nat → List Nat → List (List Nat)
  | 0, _ => []
  | _ + 1, [] => []
  | n + 1, l => l.take 64 :: chunksGo n (l.drop 64)

/-- Split a byte list into 64-byte chunks. -/
def chunks64 (l : List Nat) : List (List Nat) := chunksGo l.length l

/-- Lower-case hex digit. -/
def hexChar (n : Nat) : Char := Char.ofNat (if n < 10 then 48 + n else 87 + n)

/-- Eight lower-case hex characters of a 32-bit word (big-endian nibbles). -/
def word32Hex (x : Nat) : String :=
  String.mk ((List.range 8).map (fun i => hexChar ((x >>> (28 - 4 * i)) % 16)))

/-- `hashlib.sha256(bytes).hexdigest()`. -/
def sha256Hex (msg : List Nat) : String :=
  let st := (chunks64 (padMsg msg)).foldl sha256Block sha256Init
  word32Hex st.a ++ word32Hex st.b ++ word32Hex st.c ++ word32Hex st.d ++
  word32Hex st.e ++ word32Hex st.f ++ word32Hex st.g ++ word32Hex st.h

/-- UTF-8 encoding of a single character, as bytes. -/
def charUtf8 (c : Char) : List Nat :=
  let n := c.toNat
  if n < 0x80 then [n]
  else if n < 0x800 then [0xc0 + n / 64, 0x80 + n % 64]
  else if n < 0x10000 then [0xe0 + n / 4096, 0x80 + n / 64 % 64, 0x80 + n % 64]
  else [0xf0 + n / 262144, 0x80 + n / 4096 % 64, 0x80 + n / 64 % 64, 0x80 + n % 64]

/-- UTF-8 bytes of a string (`str.encode()`). -/
def utf8Bytes (s : String) : List Nat :=
  (s.data.map charUtf8).flatten

/-- `calculate_content_hash(content.encode())` from `helpers.py`. -/
def sha256HexStr (s : String) : String := sha256Hex (utf8Bytes s)

/-! ## JSON serialization

`json.dumps(data, sort_keys=True)` is used (compact separators `", "`/`": "`,
`ensure_ascii=True`) to produce the bytes that are hashed, while
`write_json_file` persists objects with `json.dump(data, f, indent=2,
ensure_ascii=False)` (insertion-ordered keys).  Both encoders are embedded
below, specialized to the dictionary shapes the versioning core actually
serializes. -/

/-- Four lower-case hex characters (for `\uXXXX` escapes). -/
def hex4 (x : Nat) : String :=
  String.mk ((List.range 4).map (fun i => hexChar ((x >>> (12 - 4 * i)) % 16)))

/-- JSON escape of one character, as in Python's `json` encoder.
With `ea` (ensure_ascii) true, every character outside `0x20`-`0x7e` is
`\u`-escaped (surrogate pairs above `0xffff`); otherwise only control
characters and `"`/`\` are escaped. -/
def escapeChar (ea : Bool) (c : Char) : String :=
  if c = '"' then "\\\""
  else if c = '\\' then "\\\\"
  else if c = '\n' then "\\n"
  else if c = '\r' then "\\r"
  else if c = '\t' then "\\t"
  else if c.toNat = 8 then "\\b"
  else if c.toNat = 12 then "\\f"
  else if c.toNat < 32 then "\\u" ++ hex4 c.toNat
  else if ea && decide (126 < c.toNat) then
    if c.toNat < 0x10000 then "\\u" ++ hex4 c.toNat
    else
      let v := c.toNat - 0x10000
      "\\u" ++ hex4 (0xd800 + v / 1024) ++ "\\u" ++ hex4 (0xdc00 + v % 1024)
  else String.singleton c

/-- A JSON string literal (`json.dumps` of a Python `str`). -/
def pyJsonString (ea : Bool) (s : String) : String :=
  "\"" ++ String.join (s.data.map (escapeChar ea)) ++ "\""

/-- `json.dumps` of a Python bool. -/
def jsonBool (b : Bool) : String := if b then "true" else "false"

/-- `json.dumps` of an `Optional[str]` value (`None` becomes `null`). -/
def jsonOptStr (ea : Bool) : Option String → String
  | none => "null"
  | some s => pyJsonString ea s

/-! ## Data model -/

/-- The dictionary produced by `get_file_info` in `helpers.py`
(insertion order: path, name, size, modified, hash, is_file, is_dir). -/
structure FileRecord where
  path : String
  name : String
  size : Nat
  modified : String
  hash : String
  is_file : Bool
  is_dir : Bool
  deriving DecidableEq

/-- An author/committer stamp of a commit dictionary
(insertion order: name, email, timestamp). -/
structure Stamp where
  name : String
  email : String
  timestamp : String
  deriving DecidableEq

/-- A commit dictionary as built by `ModelSyncRepo.commit` /
`_create_initial_commit` (insertion order: tree, parent, author, committer,
message, hash). -/
structure CommitData where
  tree : String
  parent : Option String
  author : Stamp
  committer : Stamp
  message : String
  hash : String
  deriving DecidableEq

/-- An object persisted in `.modelsync/objects/<h[:2]>/<h[2:]>`: either a tree
dictionary `{"files": {...}}` or a commit dictionary. -/
inductive StoredObj where
  | tree (files : List (String × FileRecord))
  | commit (c : CommitData)
  deriving DecidableEq

/-! ### Serializers -/

/-- Ordering of staged entries by path key, as `sort_keys=True` sorts
dictionary keys. -/
def keyLe (a b : String × FileRecord) : Prop := a.1 ≤ b.1

instance : DecidableRel keyLe := fun a b => inferInstanceAs (Decidable (a.1 ≤ b.1))

instance : IsTotal (String × FileRecord) keyLe := ⟨fun a b => le_total a.1 b.1⟩

instance : IsTrans (String × FileRecord) keyLe := ⟨fun _ _ _ h1 h2 => le_trans h1 h2⟩

/-- Stable sort of dictionary items by key (the order `json.dumps(...,
sort_keys=True)` emits them in). -/
def sortByKey (l : List (String × FileRecord)) : List (String × FileRecord) :=
  List.insertionSort keyLe l

/-- `json.dumps(file_record, sort_keys=True)`: keys in sorted order
hash, is_dir, is_file, modified, name, path, size. -/
def dumpsFileRecordSorted (fr : FileRecord) : String :=
  "\x7b\"hash\": " ++ pyJsonString true fr.hash ++
  ", \"is_dir\": " ++ jsonBool fr.is_dir ++
  ", \"is_file\": " ++ jsonBool fr.is_file ++
  ", \"modified\": " ++ pyJsonString true fr.modified ++
  ", \"name\": " ++ pyJsonString true fr.name ++
  ", \"path\": " ++ pyJsonString true fr.path ++
  ", \"size\": " ++ toString fr.size ++ "\x7d"

/-- `json.dumps({"files": files}, sort_keys=True)` — the `tree_content` hashed
by `_create_tree_object`. -/
def dumpsTreeSorted (files : List (String × FileRecord)) : String :=
  "\x7b\"files\": \x7b" ++
  String.intercalate ", "
    ((sortByKey files).map
      (fun kv => pyJsonString true kv.1 ++ ": " ++ dumpsFileRecordSorted kv.2)) ++
  "\x7d\x7d"

/-- `json.dumps(stamp, sort_keys=True)`: keys email, name, timestamp. -/
def dumpsStampSorted (a : Stamp) : String :=
  "\x7b\"email\": " ++ pyJsonString true a.email ++
  ", \"name\": " ++ pyJsonString true a.name ++
  ", \"timestamp\": " ++ pyJsonString true a.timestamp ++ "\x7d"

/-- `json.dumps(commit_data, sort_keys=True)` — the bytes hashed by `commit`
and `_create_initial_commit`: keys author, committer, hash, message, parent,
tree.  Note the `hash` field IS serialized (with whatever value it holds). -/
def dumpsCommitSorted (c : CommitData) : String :=
  "\x7b\"author\": " ++ dumpsStampSorted c.author ++
  ", \"committer\": " ++ dumpsStampSorted c.committer ++
  ", \"hash\": " ++ pyJsonString true c.hash ++
  ", \"message\": " ++ pyJsonString true c.message ++
  ", \"parent\": " ++ jsonOptStr true c.parent ++
  ", \"tree\": " ++ pyJsonString true c.tree ++ "\x7d"

/-- `json.dump(stamp, f, indent=2, ensure_ascii=False)` fragment at nesting
indent `ind` (insertion order name, email, timestamp). -/
def dumpsStampIndent (ind : String) (a : Stamp) : String :=
  "\x7b\n" ++ ind ++ "  \"name\": " ++ pyJsonString false a.name ++
  ",\n" ++ ind ++ "  \"email\": " ++ pyJsonString false a.email ++
  ",\n" ++ ind ++ "  \"timestamp\": " ++ pyJsonString false a.timestamp ++
  "\n" ++ ind ++ "\x7d"

/-- The exact bytes `write_json_file` persists for a commit object
(`json.dump(commit_data, f, indent=2, ensure_ascii=False)`, insertion order
tree, parent, author, committer, message, hash). -/
def dumpsCommitIndent2 (c : CommitData) : String :=
  "\x7b\n  \"tree\": " ++ pyJsonString false c.tree ++
  ",\n  \"parent\": " ++ jsonOptStr false c.parent ++
  ",\n  \"author\": " ++ dumpsStampIndent "  " c.author ++
  ",\n  \"committer\": " ++ dumpsStampIndent "  " c.committer ++
  ",\n  \"message\": " ++ pyJsonString false c.message ++
  ",\n  \"hash\": " ++ pyJsonString false c.hash ++ "\n\x7d"

/-- `json.dump(file_record, f, indent=2, ensure_ascii=False)` fragment at
nesting indent `ind` (insertion order path, name, size, modified, hash,
is_file, is_dir). -/
def dumpsFileRecordIndent (ind : String) (fr : FileRecord) : String :=
  "\x7b\n" ++ ind ++ "  \"path\": " ++ pyJsonString false fr.path ++
  ",\n" ++ ind ++ "  \"name\": " ++ pyJsonString false fr.name ++
  ",\n" ++ ind ++ "  \"size\": " ++ toString fr.size ++
  ",\n" ++ ind ++ "  \"modified\": " ++ pyJsonString false fr.modified ++
  ",\n" ++ ind ++ "  \"hash\": " ++ pyJsonString false fr.hash ++
  ",\n" ++ ind ++ "  \"is_file\": " ++ jsonBool fr.is_file ++
  ",\n" ++ ind ++ "  \"is_dir\": " ++ jsonBool fr.is_dir ++
  "\n" ++ ind ++ "\x7d"

/-- The exact bytes `write_json_file` persists for a tree object
(`json.dump({"files": files}, f, indent=2, ensure_ascii=False)`, dictionary
insertion order). -/
def dumpsTreeIndent2 (files : List (String × FileRecord)) : String :=
  "\x7b\n  \"files\": " ++
  (if files.isEmpty then "\x7b\x7d"
   else
     "\x7b\n" ++
     String.intercalate ",\n"
       (files.map (fun kv =>
         "    " ++ pyJsonString false kv.1 ++ ": " ++ dumpsFileRecordIndent "    " kv.2)) ++
     "\n  \x7d") ++
  "\n\x7d"

/-- The bytes on disk for a stored object (what `write_json_file` wrote). -/
def persistedBytes : StoredObj → String
  | .tree files => dumpsTreeIndent2 files
  | .commit c => dumpsCommitIndent2 c

/-! ## Repository state

The persisted layout under `.modelsync/` made explicit.  Python dictionaries
are association lists: `d[k] = v` updates in place when the key exists and
appends otherwise, preserving insertion order. -/

/-- A file of the working tree: repository-relative path, content, and the
modification time `stat` would report (an opaque ISO string here). -/
structure WFile where
  path : String
  content : String
  mtime : String
  deriving DecidableEq

/-- The persisted state of one `ModelSyncRepo` plus its working tree.
`root` is `self.path` (resolved, absolute).  `headContent` is the text of
`.modelsync/HEAD`; `heads` maps a branch name to the text of
`.modelsync/refs/heads/<branch>`; `objects` maps a full object hash to the
stored object (the on-disk sharding `h[:2]/h[2:]` is injective for the
64-character hashes in use, so a flat map is equivalent); `indexFiles` is the
`"files"` dictionary of `.modelsync/index`. -/
structure RepoState where
  root : String
  hasModelsyncDir : Bool
  hasConfigFile : Bool
  configUserName : String
  configUserEmail : String
  headContent : Option String
  heads : List (String × String)
  objects : List (String × StoredObj)
  indexFiles : List (String × FileRecord)
  workingTree : List WFile
  deriving DecidableEq

/-- Association-list lookup (Python `d[k]` / `k in d`). -/
def lookupA {β : Type} (l : List (String × β)) (k : String) : Option β :=
  (l.find? (fun p => p.1 == k)).map (·.2)

/-- Python `d[k] = v`: replace in place when the key exists (keys are unique
in a dictionary, so replacing the first occurrence is exact), append
otherwise. -/
def upsertA {β : Type} : List (String × β) → String → β → List (String × β)
  | [], k, v => [(k, v)]
  | p :: t, k, v => if p.1 = k then (k, v) :: t else p :: upsertA t k v

/-- Python `a or b` on strings (the empty string is falsy). -/
def pyOr (a b : String) : String := if a = "" then b else a

/-- ASCII whitespace for `str.strip()`. -/
def isPySpace (c : Char) : Bool :=
  c == ' ' || c == '\t' || c == '\n' || c == '\r' || c.toNat == 11 || c.toNat == 12

/-- Python `str.strip()` (implemented over the character list so it reduces
in the kernel, unlike `String.trim`). -/
def pyStrip (s : String) : String :=
  ⟨((s.data.dropWhile isPySpace).reverse.dropWhile isPySpace).reverse⟩

/-- Boolean list-prefix test. -/
def isPrefixOfB : List Char → List Char → Bool
  | [], _ => true
  | _ :: _, [] => false
  | a :: as, b :: bs => a == b && isPrefixOfB as bs

/-- `str.startswith(pre)` (kernel-reducible). -/
def strStartsWith (s pre : String) : Bool := isPrefixOfB pre.data s.data

/-- `str.split(sep)` for a one-character separator, over character lists. -/
def splitOnCharList (sep : Char) : List Char → List (List Char)
  | [] => [[]]
  | a :: as =>
    let r := splitOnCharList sep as
    if a == sep then [] :: r
    else
      match r with
      | [] => [[a]]
      | g :: gs => (a :: g) :: gs

/-- `str.split(sep)` for a one-character separator. -/
def pySplitChar (s : String) (sep : Char) : List String :=
  (splitOnCharList sep s.data).map (fun l => ⟨l⟩)

/-- `Path(root) / p` (an absolute second operand replaces the first). -/
def pyPathJoin (root p : String) : String :=
  if strStartsWith p "/" then p else root ++ "/" ++ p

/-- `Path(p).name`: the final path component. -/
def baseName (p : String) : String := (pySplitChar p '/').getLastD p

/-- `str.lower()` (ASCII case folding suffices for the extensions in use). -/
def pyLower (s : String) : String := ⟨s.data.map Char.toLower⟩

/-- `Path(p).suffix`: the extension of the final component, empty for
dotless names, hidden files such as `.gitignore`, and names ending in a dot. -/
def pySuffix (p : String) : String :=
  let nm := baseName p
  match pySplitChar nm '.' with
  | [] => ""
  | [_] => ""
  | parts =>
    let lastPart := parts.getLastD ""
    if lastPart = "" then ""
    else if parts.length = 2 && strStartsWith nm "." then ""
    else "." ++ lastPart

/-- The extension allow-list inlined in `get_tracked_files`
(matching `SUPPORTED_EXTENSIONS` in `config.py`). -/
def supportedExtensions : List String :=
  [".py", ".ipynb", ".json", ".yaml", ".yml", ".txt", ".md",
   ".pkl", ".joblib", ".h5", ".hdf5", ".pb", ".onnx", ".pt", ".pth",
   ".csv", ".tsv", ".parquet", ".feather", ".npy", ".npz"]

/-- The per-file predicate of `get_tracked_files`: skip paths whose string form
starts with `".modelsync"` (the string is absolute, so this filter never
fires) and keep supported extensions.  The `.modelsync` control files
themselves carry no supported extension (hash-named object files, `config`,
`HEAD`, `index`, `history.log`), so enumerating only the working tree is
faithful to `rglob("*")`. -/
def isTrackedEntry (s : RepoState) (w : WFile) : Bool :=
  let abs := pyPathJoin s.root w.path
  !(strStartsWith abs ".modelsync") && supportedExtensions.contains (pyLower (pySuffix abs))

/-- `get_tracked_files(str(self.path))`: the absolute path strings of all
tracked working-tree files. -/
def get_tracked_files (s : RepoState) : List String :=
  (s.workingTree.filter (isTrackedEntry s)).map (fun w => pyPathJoin s.root w.path)

/-- `get_file_info(file_path)` in `helpers.py` for an existing file:
`file_path` is the (absolute) string the caller passed, `w` the file's
working-tree entry.  `size` is `stat().st_size`, i.e. the UTF-8 byte length;
`hash` is `calculate_file_hash`, the SHA-256 of the content bytes. -/
def get_file_info (file_path : String) (w : WFile) : FileRecord :=
  { path := file_path
    name := baseName file_path
    size := (utf8Bytes w.content).length
    modified := w.mtime
    hash := sha256HexStr w.content
    is_file := true
    is_dir := false }

/-- Locate the working-tree file whose resolved absolute path is `absPath`
(`full_path.exists()`). -/
def findWorkingFile (s : RepoState) (absPath : String) : Option WFile :=
  s.workingTree.find? (fun w => pyPathJoin s.root w.path == absPath)

/-- `DEFAULT_CONFIG["user"]` from `config.py`: both fields empty. -/
structure PyUserConfig where
  name : String
  email : String
  deriving DecidableEq

/-- `get_config()` from `config.py`.  The source checks whether the config
file exists but its parsing is unimplemented (`TODO: Implement config file
parsing`); it always returns `DEFAULT_CONFIG.copy()`, whose `user` entries are
empty strings.  The identity persisted by `init` is therefore never read
back. -/
def get_config : PyUserConfig := { name := "", email := "" }

/-- `ModelSyncRepo.is_initialized`: the control directory and its `config`
file both exist. -/
def is_initialized (s : RepoState) : Bool :=
  s.hasModelsyncDir && s.hasConfigFile

/-- `ModelSyncRepo._get_current_branch`: parse `.modelsync/HEAD`. -/
def get_current_branch (s : RepoState) : Option String :=
  match s.headContent with
  | none => none
  | some h =>
    let t := pyStrip h
    if strStartsWith t "ref: refs/heads/" then (pySplitChar t '/').getLast? else none

/-- `ModelSyncRepo._get_branch_head`: the stripped content of
`.modelsync/refs/heads/<branch>`, or `None` when the file is missing. -/
def get_branch_head (s : RepoState) (branch : String) : Option String :=
  (lookupA s.heads branch).map pyStrip

/-- `ModelSyncRepo._create_tree_object`: hash the compact sorted-keys
serialization of `{"files": files}`, persist the dictionary (as indent-2
bytes) under the hash, return the hash. -/
def create_tree_object (s : RepoState) (files : List (String × FileRecord)) :
    String × RepoState :=
  let tree_hash := sha256HexStr (dumpsTreeSorted files)
  (tree_hash, { s with objects := upsertA s.objects tree_hash (StoredObj.tree files) })

/-- The commit dictionary of `_create_initial_commit` before the hash is
attached (`hash` holds `""` when the dictionary is hashed).  The source calls
`datetime.now()` separately for the author and committer stamps; both calls
are modeled by the single parameter `now`. -/
def initialCommitData (now : String) : CommitData :=
  { tree := ""
    parent := none
    author := { name := "ModelSync", email := "modelsync@local", timestamp := now }
    committer := { name := "ModelSync", email := "modelsync@local", timestamp := now }
    message := "Initial commit"
    hash := "" }

/-- `ModelSyncRepo._create_initial_commit`: hash the commit dictionary (with
`hash` still `""`), embed the hash, store the object, point
`refs/heads/main` at it. -/
def create_initial_commit (s : RepoState) (now : String) : RepoState :=
  let c0 := initialCommitData now
  let commit_hash := sha256HexStr (dumpsCommitSorted c0)
  let c1 := { c0 with hash := commit_hash }
  { s with
    objects := upsertA s.objects commit_hash (StoredObj.commit c1)
    heads := upsertA s.heads "main" commit_hash }

/-- `ModelSyncRepo.init`: refuse when already initialized; otherwise create
the control directory, write config (user fields only when non-empty), HEAD,
an empty index, and the initial commit. -/
def init (s : RepoState) (user_name user_email now : String) : Bool × RepoState :=
  if is_initialized s then (false, s)
  else
    let s1 := { s with
      hasModelsyncDir := true
      hasConfigFile := true
      configUserName := if user_name = "" then "" else user_name
      configUserEmail := if user_email = "" then "" else user_email
      headContent := some "ref: refs/heads/main"
      indexFiles := [] }
    (true, create_initial_commit s1 now)

/-- `ModelSyncRepo.add`: for each requested path, skip it when the resolved
file does not exist, otherwise upsert its fresh `get_file_info` record into
the index under the path string as given.  Returns the added-files
dictionary and the updated state. -/
def add (s : RepoState) (file_paths : List String) :
    List (String × FileRecord) × RepoState :=
  if !is_initialized s then ([], s)
  else
    let step := fun (acc : List (String × FileRecord) × List (String × FileRecord))
                    (p : String) =>
      match findWorkingFile s (pyPathJoin s.root p) with
      | none => acc
      | some w =>
        let fi := get_file_info (pyPathJoin s.root p) w
        (upsertA acc.1 p fi, upsertA acc.2 p fi)
    let r := file_paths.foldl step (s.indexFiles, [])
    (r.2, { s with indexFiles := r.1 })

/-- The author/committer stamp `commit` builds: the caller-supplied value
falls back through `get_config` (always the empty defaults, see
`get_config`) to the `"Unknown"`/`"unknown@local"` sentinels.  The source
calls `datetime.now()` once per stamp; both calls are modeled by `now`. -/
def commitStamp (author_name author_email now : String) : Stamp :=
  { name := pyOr author_name (pyOr get_config.name "Unknown")
    email := pyOr author_email (pyOr get_config.email "unknown@local")
    timestamp := now }

/-- The commit dictionary built by `commit` before the hash is attached
(lines 156-171 of `versioning.py`): the tree object has already been written,
and the parent is the branch head read afterwards (`_create_tree_object`
does not touch `refs/heads`). -/
def commitData0 (s : RepoState) (current_branch message author_name author_email now : String) :
    CommitData :=
  let tr := create_tree_object s s.indexFiles
  { tree := tr.1
    parent := get_branch_head tr.2 current_branch
    author := commitStamp author_name author_email now
    committer := commitStamp author_name author_email now
    message := message
    hash := "" }

/-- The hash `commit` computes: SHA-256 of the compact sorted serialization of
the commit dictionary while its `hash` field still holds `""`. -/
def commitHash (s : RepoState) (current_branch message author_name author_email now : String) :
    String :=
  sha256HexStr (dumpsCommitSorted (commitData0 s current_branch message author_name author_email now))

/-- The poststate of a successful `commit`: tree object written, commit object
(with hash embedded) written, branch head advanced, index cleared. -/
def commitSuccState (s : RepoState) (current_branch message author_name author_email now : String) :
    RepoState :=
  let tr := create_tree_object s s.indexFiles
  let ch := commitHash s current_branch message author_name author_email now
  let c1 := { commitData0 s current_branch message author_name author_email now with hash := ch }
  { tr.2 with
    objects := upsertA tr.2.objects ch (StoredObj.commit c1)
    heads := upsertA tr.2.heads current_branch ch
    indexFiles := [] }

/-- `ModelSyncRepo.commit`: refuse when uninitialized, when HEAD does not
resolve, or when nothing is staged; otherwise create the tree object, read
the parent from the branch head, build the commit dictionary with `hash` set
to `""`, hash its compact sorted serialization, attach the hash, store the
object, advance the branch head, and clear the index. -/
def commit (s : RepoState) (message author_name author_email now : String) :
    Option String × RepoState :=
  if !is_initialized s then (none, s)
  else
    match get_current_branch s with
    | none => (none, s)
    | some current_branch =>
      if s.indexFiles.isEmpty then (none, s)
      else
        (some (commitHash s current_branch message author_name author_email now),
         commitSuccState s current_branch message author_name author_email now)

/-- The record `ModelSyncRepo.status` returns (sans the uninitialized error
case, which is modeled as `none` in `status`). -/
structure StatusReport where
  branch : Option String
  staged_files : List String
  modified_files : List String
  total_tracked : Nat
  total_staged : Nat
  deriving DecidableEq

/-- `ModelSyncRepo.status`: tracked files are enumerated as absolute path
strings; a tracked file counts as modified when its absolute path is missing
from the index or its freshly computed hash differs from the staged one. -/
def status (s : RepoState) : Option StatusReport :=
  if !is_initialized s then none
  else
    let tracked := s.workingTree.filter (isTrackedEntry s)
    some
      { branch := get_current_branch s
        staged_files := s.indexFiles.map (·.1)
        modified_files :=
          (tracked.filter (fun w =>
            match lookupA s.indexFiles (pyPathJoin s.root w.path) with
            | some fr => sha256HexStr w.content != fr.hash
            | none => true)).map (fun w => pyPathJoin s.root w.path)
        total_tracked := tracked.length
        total_staged := s.indexFiles.length }

/-- The `parent` pointer `log` follows: `commit_data.get("parent")`, which is
`None` when the stored dictionary is a tree (no `"parent"` key). -/
def objParent : StoredObj → Option String
  | .tree _ => none
  | .commit c => c.parent

/-- The `while commit_hash:` walk of `ModelSyncRepo.log`, with explicit fuel
(the source loops forever on a cyclic store; any fuel larger than the chain
length is enough on the acyclic stores the code creates).  A falsy hash
(`None` or `""`) ends the walk; a hash whose object file is missing breaks
out of the loop. -/
def logWalk (objects : List (String × StoredObj)) :
    Option String → Nat → List StoredObj
  | _, 0 => []
  | none, _ + 1 => []
  | some h, fuel + 1 =>
    if h = "" then []
    else
      match lookupA objects h with
      | none => []
      | some o => o :: logWalk objects (objParent o) fuel

/-- `ModelSyncRepo.log`: start from the current branch head and walk parent
pointers. -/
def log (s : RepoState) (fuel : Nat) : List StoredObj :=
  if !is_initialized s then []
  else
    match get_current_branch s with
    | none => []
    | some b => logWalk s.objects (get_branch_head s b) fuel

/-- The commit stored under hash `h`, defaulting when absent or a tree. -/
def storedCommitAt (s : RepoState) (h : String) : CommitData :=
  match lookupA s.objects h with
  | some (.commit c) => c
  | _ => { tree := "", parent := none, author := ⟨"", "", ""⟩,
           committer := ⟨"", "", ""⟩, message := "", hash := "" }

/-! ## Spec-side serializer (for the refinement comparison of C2)

The spec reading under test for claim C2 is that the commit hash is computed
over a canonical form from which the `hash` key is absent altogether. -/

/-- Modelled from the spec: "Compute the commit's hash over the canonical
serialization of all fields except `hash` itself" — the sorted compact
serialization of a commit dictionary with the `hash` key excluded entirely.
This follows the spec's words, not the source (which serializes the key with
value `""`); it exists only to compare the two hashing schemes. -/
def dumpsCommitSortedNoHash (c : CommitData) : String :=
  "\x7b\"author\": " ++ dumpsStampSorted c.author ++
  ", \"committer\": " ++ dumpsStampSorted c.committer ++
  ", \"message\": " ++ pyJsonString true c.message ++
  ", \"parent\": " ++ jsonOptStr true c.parent ++
  ", \"tree\": " ++ pyJsonString true c.tree ++ "\x7d"

/-! ## Concrete repositories used by witnesses and counterexamples -/

/-- One working-tree file `a.txt` with content `"hello"`. -/
def demoWF : WFile := ⟨"a.txt", "hello", "2024-01-01T00:00:00"⟩

/-- A second working-tree file `b.txt` with content `"world"`. -/
def demoWFB : WFile := ⟨"b.txt", "world", "2024-01-01T00:00:00"⟩

/-- A fresh, uninitialized project directory at `/repo`. -/
def demoFresh : RepoState :=
  { root := "/repo", hasModelsyncDir := false, hasConfigFile := false,
    configUserName := "", configUserEmail := "", headContent := none,
    heads := [], objects := [], indexFiles := [],
    workingTree := [demoWF, demoWFB] }

/-- `/repo` after `init("Ann", "ann@x.io")`. -/
def demoInit : RepoState := (init demoFresh "Ann" "ann@x.io" "2024-01-01T00:00:01").2

/-- The root commit hash of `demoInit`. -/
def demoRootHash : String := (get_branch_head demoInit "main").getD ""

/-- The root commit object as stored by `init` in `demoInit`. -/
def demoRootStored : CommitData :=
  { initialCommitData "2024-01-01T00:00:01" with hash := demoRootHash }

/-- `demoInit` after `add(["a.txt"])`. -/
def demoAdded : RepoState := (add demoInit ["a.txt"]).2

/-- The result of `commit("first")` (no caller-supplied identity) on `demoAdded`. -/
def demoCommitRes : Option String × RepoState :=
  commit demoAdded "first" "" "" "2024-01-01T00:00:02"

/-- The hash returned by the demo commit. -/
def demoCommitHash : String := demoCommitRes.1.getD ""

/-- The staged record of `a.txt` as `add` captures it, with mtime `t`. -/
def demoFr (t : String) : FileRecord := get_file_info "/repo/a.txt" ⟨"a.txt", "hello", t⟩

/-- The staged record of `b.txt`. -/
def demoFrB : FileRecord := get_file_info "/repo/b.txt" ⟨"b.txt", "world", "2024-01-01T00:00:00"⟩

/-- A one-file staged snapshot. -/
def demoFiles : List (String × FileRecord) := [("a.txt", demoFr "2024-01-01T00:00:00")]

/-- Two-entry staging snapshot, and the same snapshot in the opposite
insertion order. -/
def demoL1 : List (String × FileRecord) :=
  [("a.txt", demoFr "2024-01-01T00:00:00"), ("b.txt", demoFrB)]

/-- `demoL1` with the two entries staged in the opposite order. -/
def demoL2 : List (String × FileRecord) :=
  [("b.txt", demoFrB), ("a.txt", demoFr "2024-01-01T00:00:00")]

/-- A tiny object store holding a two-commit chain for the `log` witness. -/
def demoChainStore : List (String × StoredObj) :=
  [("h2head", StoredObj.commit
      { tree := "t2", parent := some "h1root",
        author := ⟨"A", "a@x", "T2"⟩, committer := ⟨"A", "a@x", "T2"⟩,
        message := "second", hash := "h2head" }),
   ("h1root", StoredObj.commit
      { tree := "t1", parent := none,
        author := ⟨"A", "a@x", "T1"⟩, committer := ⟨"A", "a@x", "T1"⟩,
        message := "first", hash := "h1root" })]

/-- An initialized repository whose store holds a two-commit chain, for the
C7 witness. -/
def demoChainRepo : RepoState :=
  { root := "/repo", hasModelsyncDir := true, hasConfigFile := true,
    configUserName := "", configUserEmail := "",
    headContent := some "ref: refs/heads/main",
    heads := [("main", "h2head")], objects := demoChainStore,
    indexFiles := [], workingTree := [] }

/-! # Theorems -/

set_option maxRecDepth 1000000

/-- SHA-256 validation: FIPS 180-2 test vector for the empty message. -/
theorem sha256_empty_vector :
    sha256HexStr "" = "e3b0c44298fc1c149afbf4c8996fb92427ae41e4649b934ca495991b7852b855" := by
  decide

/-- SHA-256 validation: FIPS 180-2 test vector for "abc". -/
theorem sha256_abc_vector :
    sha256HexStr "abc" = "ba7816bf8f01cfea414140de5dae2223b00361a396177a9cb410ff61f20015ad" := by
  decide

/-! ## Association-list (Python dict) lemmas -/

/-- Looking up the key just written returns the new value. -/
theorem lookupA_upsertA_self {β : Type} (l : List (String × β)) (k : String) (v : β) :
    lookupA (upsertA l k v) k = some v := by
  induction l with
  | nil => simp [upsertA, lookupA]
  | cons p t ih =>
    by_cases h : p.1 = k
    · simp [upsertA, h, lookupA]
    · simp only [upsertA, if_neg h]
      simpa [lookupA, List.find?_cons, h] using ih

/-- Writing one key leaves every other key's lookup unchanged. -/
theorem lookupA_upsertA_ne {β : Type} (l : List (String × β)) (k k' : String) (v : β)
    (h : k' ≠ k) : lookupA (upsertA l k v) k' = lookupA l k' := by
  induction l with
  | nil => simp [upsertA, lookupA, List.find?_cons, Ne.symm h]
  | cons p t ih =>
    by_cases hp : p.1 = k
    · simp [upsertA, hp, lookupA, List.find?_cons, Ne.symm h]
    · simp only [upsertA, if_neg hp]
      by_cases hk' : p.1 = k'
      · simp [lookupA, List.find?_cons, hk']
      · simpa [lookupA, List.find?_cons, hk'] using ih

/-! ## Digest shape lemmas -/

/-- A word renders as exactly eight hex characters. -/
theorem word32Hex_length (x : Nat) : (word32Hex x).length = 8 := by
  simp [word32Hex, String.length]

/-- Every hexdigest has exactly 64 characters. -/
theorem sha256Hex_length (msg : List Nat) : (sha256Hex msg).length = 64 := by
  simp [sha256Hex, String.length_append, word32Hex_length]

/-- A content hash is never the empty string. -/
theorem sha256HexStr_ne_empty (s : String) : sha256HexStr s ≠ "" := by
  intro h
  have h64 := sha256Hex_length (utf8Bytes s)
  rw [show sha256Hex (utf8Bytes s) = sha256HexStr s from rfl, h] at h64
  simp [String.length] at h64

/-! ## Sorting lemmas (determinism of `sort_keys=True`) -/

/-- Strict key order on staged entries. -/
def strictKeyLt (a b : String × FileRecord) : Prop := a.1 < b.1

instance : IsAntisymm (String × FileRecord) strictKeyLt :=
  ⟨fun _ _ h1 h2 => absurd (lt_trans h1 h2) (lt_irrefl _)⟩

/-- A key-sorted list with pairwise-distinct keys is strictly key-sorted. -/
theorem sorted_strictKeyLt_of_sorted_nodup {l : List (String × FileRecord)}
    (hs : List.Sorted keyLe l) (hn : (l.map Prod.fst).Nodup) :
    List.Sorted strictKeyLt l := by
  have hpn : l.Pairwise (fun a b : String × FileRecord => a.1 ≠ b.1) :=
    (List.pairwise_map).mp hn
  exact (hs.and hpn).imp (fun h => lt_of_le_of_ne h.1 h.2)

/-- Two staged snapshots holding the same entries (in any order, keys
distinct) sort to the same item sequence. -/
theorem sortByKey_eq_of_perm {l1 l2 : List (String × FileRecord)}
    (hp : l1.Perm l2) (hn : (l1.map Prod.fst).Nodup) :
    sortByKey l1 = sortByKey l2 := by
  have hps : (sortByKey l1).Perm (sortByKey l2) :=
    (List.perm_insertionSort keyLe l1).trans
      (hp.trans (List.perm_insertionSort keyLe l2).symm)
  have hn1 : ((sortByKey l1).map Prod.fst).Nodup :=
    ((List.perm_insertionSort keyLe l1).map Prod.fst).nodup_iff.mpr hn
  have hn2 : ((sortByKey l2).map Prod.fst).Nodup :=
    (hps.map Prod.fst).nodup_iff.mp hn1
  exact List.eq_of_perm_of_sorted hps
    (sorted_strictKeyLt_of_sorted_nodup (List.sorted_insertionSort keyLe l1) hn1)
    (sorted_strictKeyLt_of_sorted_nodup (List.sorted_insertionSort keyLe l2) hn2)

/-! ## Inversion of a successful `commit` -/

/-- A `commit` call that returns a hash went down the success path: the
repository was initialized, HEAD resolved, the index was non-empty, and the
result is exactly the tree-write/commit-write/head-advance/index-clear
poststate. -/
theorem commit_success_shape {s : RepoState} {m a e n h : String} {s' : RepoState}
    (hc : commit s m a e n = (some h, s')) :
    ∃ branch,
      is_initialized s = true ∧
      get_current_branch s = some branch ∧
      s.indexFiles ≠ [] ∧
      h = commitHash s branch m a e n ∧
      s' = commitSuccState s branch m a e n := by
  by_cases hi : is_initialized s
  · cases hb : get_current_branch s with
    | none => simp [commit, hi, hb] at hc
    | some br =>
      by_cases he : s.indexFiles.isEmpty
      · simp [commit, hi, hb, he] at hc
      · simp only [commit, hi, hb, he, Bool.not_true, Bool.false_eq_true, if_false,
          Prod.mk.injEq, Option.some.injEq] at hc
        exact ⟨br, hi, rfl, by simpa using he, hc.1.symm, hc.2.symm⟩
  · simp [commit, hi] at hc

/-! ## The `log` walk -/

/-- When the fuel is not exhausted, the walk of `log` is a parent-linked
chain that starts at the given hash and ends either at an object with no
(truthy) parent pointer or at a parent hash whose object is missing from the
store. -/
theorem logWalk_spec (objects : List (String × StoredObj)) :
    ∀ (fuel : Nat) (start : Option String),
      (logWalk objects start fuel).length < fuel →
      ((logWalk objects start fuel).Chain'
          (fun x y => ∃ hp, objParent x = some hp ∧ hp ≠ "" ∧ lookupA objects hp = some y)
        ∧ (∀ o, (logWalk objects start fuel).head? = some o →
            ∃ hs, start = some hs ∧ hs ≠ "" ∧ lookupA objects hs = some o)
        ∧ (∀ o, (logWalk objects start fuel).getLast? = some o →
            objParent o = none ∨
              ∃ hp, objParent o = some hp ∧ (hp = "" ∨ lookupA objects hp = none))) := by
  intro fuel
  induction fuel with
  | zero => intro start hf; simp [logWalk] at hf
  | succ n ih =>
    intro start hf
    match start with
    | none => simp [logWalk]
    | some h =>
      by_cases hh : h = ""
      · simp [logWalk, hh]
      · cases hl : lookupA objects h with
        | none => simp [logWalk, hh, hl]
        | some o =>
          have hexp : logWalk objects (some h) (n + 1) =
              o :: logWalk objects (objParent o) n := by
            simp [logWalk, hh, hl]
          rw [hexp] at hf ⊢
          have hlen : (logWalk objects (objParent o) n).length < n := by
            simpa using hf
          obtain ⟨ihc, ihh, ihl⟩ := ih (objParent o) hlen
          refine ⟨?_, ?_, ?_⟩
          · refine List.chain'_cons'.mpr ⟨?_, ihc⟩
            intro y hy
            obtain ⟨hs, hseq, hsne, hslook⟩ := ihh y hy
            exact ⟨hs, hseq, hsne, hslook⟩
          · intro o' ho'
            have : o' = o := by simpa using ho'.symm
            subst this
            exact ⟨h, rfl, hh, hl⟩
          · intro o' ho'
            cases hrest : logWalk objects (objParent o) n with
            | nil =>
              rw [hrest] at ho'
              have : o' = o := by simpa using ho'.symm
              subst this
              cases hpar : objParent o' with
              | none => exact Or.inl rfl
              | some hp =>
                by_cases hpe : hp = ""
                · exact Or.inr ⟨hp, rfl, Or.inl hpe⟩
                · cases hpl : lookupA objects hp with
                  | none => exact Or.inr ⟨hp, rfl, Or.inr hpl⟩
                  | some o2 =>
                    exfalso
                    rw [hrest] at hf
                    have hn : 0 < n := by simpa using hf
                    obtain ⟨k, rfl⟩ : ∃ k, n = k + 1 := ⟨n - 1, by omega⟩
                    rw [hpar] at hrest
                    simp [logWalk, hpe, hpl] at hrest
            | cons r rs =>
              rw [hrest] at ho'
              have := ihl o'
              rw [hrest] at this
              exact this (by simpa [List.getLast?_cons_cons] using ho')

/-! ## C4: commit with an empty staging index is a complete no-op -/

/-- C4.  Whenever `commit` is called with an empty Staging Index it returns
`None` and leaves the state — object store, branch references, index —
exactly as it was; in particular the `log` history is unchanged for every
fuel bound. -/
theorem commit_empty_staging_noop (s : RepoState) (m a e n : String)
    (h : s.indexFiles = []) :
    commit s m a e n = (none, s) ∧
    ∀ fuel, log (commit s m a e n).2 fuel = log s fuel := by
  have h1 : commit s m a e n = (none, s) := by
    by_cases hi : is_initialized s
    · cases hb : get_current_branch s with
      | none => simp [commit, hi, hb]
      | some br => simp [commit, hi, hb, h]
    · simp [commit, hi]
  exact ⟨h1, fun fuel => by rw [h1]⟩

/-- Witness for C4: the freshly initialized demo repository has an empty
index, and `commit` on it is a no-op. -/
theorem commit_empty_staging_noop_witness :
    demoInit.indexFiles = [] ∧
    (commit demoInit "second" "" "" "2024-01-01T00:00:03" = (none, demoInit) ∧
     ∀ fuel, log (commit demoInit "second" "" "" "2024-01-01T00:00:03").2 fuel =
       log demoInit fuel) :=
  ⟨by decide, commit_empty_staging_noop demoInit "second" "" "" "2024-01-01T00:00:03" (by decide)⟩

/-! ## C9: a second init is refused and changes nothing -/

/-- C9.  `init` on an already-initialized repository returns the
"not re-initialized" signal `false` and returns the state unchanged: branch
references, config, index, objects are all exactly as before. -/
theorem init_twice_noop (s : RepoState) (un ue now : String)
    (h : is_initialized s = true) :
    init s un ue now = (false, s) := by
  simp [init, h]

/-- Witness for C9: re-running `init` on the demo repository. -/
theorem init_twice_noop_witness :
    is_initialized demoInit = true ∧
    init demoInit "Bob" "bob@x.io" "2024-01-01T00:00:09" = (false, demoInit) :=
  ⟨by decide, init_twice_noop demoInit "Bob" "bob@x.io" "2024-01-01T00:00:09" (by decide)⟩

/-! ## C8: a successful commit clears the staging index -/

/-- C8.  After every successful `commit` the Staging Index is empty:
`status` reports no staged files and `total_staged = 0`. -/
theorem commit_clears_staging {s : RepoState} {m a e n h : String} {s' : RepoState}
    (hc : commit s m a e n = (some h, s')) :
    s'.indexFiles = [] ∧
    ∃ r, status s' = some r ∧ r.staged_files = [] ∧ r.total_staged = 0 := by
  obtain ⟨br, hi, hb, hne, hh, hs⟩ := commit_success_shape hc
  subst hs
  have hinit : is_initialized (commitSuccState s br m a e n) = true := hi
  refine ⟨rfl, ?_⟩
  unfold status
  rw [hinit]
  exact ⟨_, rfl, rfl, rfl⟩

/-- Witness for C8: the demo commit succeeds and the poststate has an empty
staging index. -/
theorem commit_clears_staging_witness :
    (commit demoAdded "first" "" "" "2024-01-01T00:00:02" =
      (some demoCommitHash, demoCommitRes.2)) ∧
    (demoCommitRes.2.indexFiles = [] ∧
     ∃ r, status demoCommitRes.2 = some r ∧ r.staged_files = [] ∧ r.total_staged = 0) :=
  ⟨by decide,
   @commit_clears_staging demoAdded "first" "" "" "2024-01-01T00:00:02"
     demoCommitHash demoCommitRes.2 (by decide)⟩

/-! ## C7: `log` walks parents from the branch head, truncating at holes -/

/-- C7.  `log` starts from the current branch head and follows parent
pointers newest-to-oldest: whenever the fuel bound is not exhausted, the
returned sequence is exactly the walk from the branch head, consecutive
entries are linked by parent hashes resolved in the object store, and the
walk ends either at an object with a null parent or by silent truncation at
a parent hash whose object is missing from the store. -/
theorem log_walks_parents_until_null_or_missing (s : RepoState) (b : String) (fuel : Nat)
    (hi : is_initialized s = true) (hb : get_current_branch s = some b)
    (hf : (log s fuel).length < fuel) :
    log s fuel = logWalk s.objects (get_branch_head s b) fuel ∧
    (log s fuel).Chain'
      (fun x y => ∃ hp, objParent x = some hp ∧ hp ≠ "" ∧ lookupA s.objects hp = some y) ∧
    (∀ o, (log s fuel).head? = some o →
        ∃ hs, get_branch_head s b = some hs ∧ hs ≠ "" ∧ lookupA s.objects hs = some o) ∧
    (∀ o, (log s fuel).getLast? = some o →
        objParent o = none ∨
          ∃ hp, objParent o = some hp ∧ (hp = "" ∨ lookupA s.objects hp = none)) := by
  have hlog : log s fuel = logWalk s.objects (get_branch_head s b) fuel := by
    simp [log, hi, hb]
  rw [hlog] at hf ⊢
  obtain ⟨c1, c2, c3⟩ := logWalk_spec s.objects fuel (get_branch_head s b) hf
  exact ⟨rfl, c1, c2, c3⟩

/-- Witness for C7: walking the two-commit chain with ample fuel. -/
theorem log_walks_parents_witness :
    (is_initialized demoChainRepo = true ∧
     get_current_branch demoChainRepo = some "main" ∧
     (log demoChainRepo 10).length < 10) ∧
    (log demoChainRepo 10 = logWalk demoChainRepo.objects (get_branch_head demoChainRepo "main") 10 ∧
     (log demoChainRepo 10).Chain'
       (fun x y => ∃ hp, objParent x = some hp ∧ hp ≠ "" ∧
         lookupA demoChainRepo.objects hp = some y) ∧
     (∀ o, (log demoChainRepo 10).head? = some o →
         ∃ hs, get_branch_head demoChainRepo "main" = some hs ∧ hs ≠ "" ∧
           lookupA demoChainRepo.objects hs = some o) ∧
     (∀ o, (log demoChainRepo 10).getLast? = some o →
         objParent o = none ∨
           ∃ hp, objParent o = some hp ∧
             (hp = "" ∨ lookupA demoChainRepo.objects hp = none))) :=
  ⟨⟨by decide, by decide, by decide⟩,
   log_walks_parents_until_null_or_missing demoChainRepo "main" 10
     (by decide) (by decide) (by decide)⟩

/-! ## C10: the root commit's tree reference resolves to nothing -/

/-- C10.  The root commit `init` creates carries `tree = ""`, and `init`
stores no tree object: the empty-string reference resolves to nothing in the
object store.  Every commit created by a successful `commit`, by contrast,
has a `tree` hash that does resolve to a stored object. -/
theorem initial_commit_tree_dangles (s : RepoState) (un ue now : String)
    (h0 : s.objects = []) (hi : is_initialized s = false) :
    (∃ c, lookupA ((init s un ue now).2).objects
            (sha256HexStr (dumpsCommitSorted (initialCommitData now))) =
              some (StoredObj.commit c)
        ∧ c.tree = ""
        ∧ lookupA ((init s un ue now).2).objects c.tree = none)
    ∧ ∀ t m a e n h2 s2, commit t m a e n = (some h2, s2) →
        (lookupA s2.objects ((storedCommitAt s2 h2).tree)).isSome = true := by
  constructor
  · have hini : (init s un ue now).2.objects =
        upsertA s.objects (sha256HexStr (dumpsCommitSorted (initialCommitData now)))
          (StoredObj.commit { initialCommitData now with
            hash := sha256HexStr (dumpsCommitSorted (initialCommitData now)) }) := by
      simp [init, hi, create_initial_commit]
    refine ⟨{ initialCommitData now with
        hash := sha256HexStr (dumpsCommitSorted (initialCommitData now)) }, ?_, rfl, ?_⟩
    · rw [hini]; exact lookupA_upsertA_self _ _ _
    · show lookupA ((init s un ue now).2).objects "" = none
      have hk := sha256HexStr_ne_empty (dumpsCommitSorted (initialCommitData now))
      rw [hini, h0]
      simp [upsertA, lookupA, List.find?_cons, hk]
  · intro t m a e n h2 s2 hc
    obtain ⟨br, hti, htb, htne, hh, hs⟩ := commit_success_shape hc
    subst hs
    subst hh
    have hobj : (commitSuccState t br m a e n).objects =
        upsertA (upsertA t.objects (sha256HexStr (dumpsTreeSorted t.indexFiles))
                  (StoredObj.tree t.indexFiles))
          (commitHash t br m a e n)
          (StoredObj.commit
            { commitData0 t br m a e n with hash := commitHash t br m a e n }) := by
      simp [commitSuccState, create_tree_object]
    have hlook : lookupA (commitSuccState t br m a e n).objects (commitHash t br m a e n) =
        some (StoredObj.commit
          { commitData0 t br m a e n with hash := commitHash t br m a e n }) := by
      rw [hobj]; exact lookupA_upsertA_self _ _ _
    have hsc : storedCommitAt (commitSuccState t br m a e n) (commitHash t br m a e n) =
        { commitData0 t br m a e n with hash := commitHash t br m a e n } := by
      simp [storedCommitAt, hlook]
    rw [hsc]
    have htree : ({ commitData0 t br m a e n with hash := commitHash t br m a e n } :
        CommitData).tree = sha256HexStr (dumpsTreeSorted t.indexFiles) := by
      simp [commitData0, create_tree_object]
    rw [htree]
    by_cases hcol : sha256HexStr (dumpsTreeSorted t.indexFiles) = commitHash t br m a e n
    · rw [hobj, hcol, lookupA_upsertA_self]; rfl
    · rw [hobj, lookupA_upsertA_ne _ _ _ _ hcol, lookupA_upsertA_self]; rfl

/-- Witness for C10: instantiated at the fresh demo directory. -/
theorem initial_commit_tree_dangles_witness :
    (demoFresh.objects = [] ∧ is_initialized demoFresh = false) ∧
    ((∃ c, lookupA ((init demoFresh "Ann" "ann@x.io" "2024-01-01T00:00:01").2).objects
            (sha256HexStr (dumpsCommitSorted (initialCommitData "2024-01-01T00:00:01"))) =
              some (StoredObj.commit c)
        ∧ c.tree = ""
        ∧ lookupA ((init demoFresh "Ann" "ann@x.io" "2024-01-01T00:00:01").2).objects c.tree = none)
     ∧ ∀ t m a e n h2 s2, commit t m a e n = (some h2, s2) →
        (lookupA s2.objects ((storedCommitAt s2 h2).tree)).isSome = true) :=
  ⟨⟨rfl, rfl⟩,
   initial_commit_tree_dangles demoFresh "Ann" "ann@x.io" "2024-01-01T00:00:01" rfl rfl⟩

/-! ## C1 and C2: what the stored hashes are actually computed over -/

/-- The commit object a successful `commit` stores under the returned hash. -/
theorem commitSuccState_lookup (t : RepoState) (br m a e n : String) :
    lookupA (commitSuccState t br m a e n).objects (commitHash t br m a e n) =
      some (StoredObj.commit
        { commitData0 t br m a e n with hash := commitHash t br m a e n }) :=
  lookupA_upsertA_self _ _ _

/-- Resetting the embedded hash of a stored commit recovers the dictionary
that was hashed (whose `hash` field held `""`). -/
theorem commitData0_reset_hash (t : RepoState) (br m a e n x : String) :
    ({ { commitData0 t br m a e n with hash := x } with hash := "" } : CommitData) =
      commitData0 t br m a e n :=
  rfl

/-- C1 (amended).  The hash under which `_create_tree_object` / `commit`
store an object is the SHA-256 of the object's compact `sort_keys=True`
serialization (for commits: of the dictionary whose `hash` field still holds
`""`), while the bytes persisted for the object are its indent-2,
insertion-ordered re-serialization.  Reading back via the stored hash
therefore returns a faithful re-serialization of the same logical object,
but not the bytes that were hashed. -/
theorem object_hash_is_of_canonical_serialization
    (s : RepoState) (files : List (String × FileRecord))
    {t : RepoState} {m a e n h2 : String} {s2 : RepoState}
    (hc : commit t m a e n = (some h2, s2)) :
    (create_tree_object s files).1 = sha256HexStr (dumpsTreeSorted files)
    ∧ lookupA (create_tree_object s files).2.objects (create_tree_object s files).1 =
        some (StoredObj.tree files)
    ∧ persistedBytes (StoredObj.tree files) = dumpsTreeIndent2 files
    ∧ ∃ c, lookupA s2.objects h2 = some (StoredObj.commit c)
        ∧ h2 = sha256HexStr (dumpsCommitSorted { c with hash := "" })
        ∧ persistedBytes (StoredObj.commit c) = dumpsCommitIndent2 c := by
  refine ⟨rfl, lookupA_upsertA_self _ _ _, rfl, ?_⟩
  obtain ⟨br, hti, htb, htne, hh, hs⟩ := commit_success_shape hc
  subst hs
  subst hh
  refine ⟨{ commitData0 t br m a e n with hash := commitHash t br m a e n },
    commitSuccState_lookup t br m a e n, ?_, rfl⟩
  rw [commitData0_reset_hash]
  rfl

/-- Witness for C1 (amended): instantiated on the demo repository and its
successful commit. -/
theorem object_hash_is_of_canonical_serialization_witness :
    (commit demoAdded "first" "" "" "2024-01-01T00:00:02" =
      (some demoCommitHash, demoCommitRes.2)) ∧
    ((create_tree_object demoInit demoFiles).1 = sha256HexStr (dumpsTreeSorted demoFiles)
     ∧ lookupA (create_tree_object demoInit demoFiles).2.objects
         (create_tree_object demoInit demoFiles).1 = some (StoredObj.tree demoFiles)
     ∧ persistedBytes (StoredObj.tree demoFiles) = dumpsTreeIndent2 demoFiles
     ∧ ∃ c, lookupA demoCommitRes.2.objects demoCommitHash = some (StoredObj.commit c)
         ∧ demoCommitHash = sha256HexStr (dumpsCommitSorted { c with hash := "" })
         ∧ persistedBytes (StoredObj.commit c) = dumpsCommitIndent2 c) :=
  ⟨by decide,
   @object_hash_is_of_canonical_serialization demoInit demoFiles demoAdded
     "first" "" "" "2024-01-01T00:00:02" demoCommitHash demoCommitRes.2 (by decide)⟩

/-- C1 counterexample: the tree object `_create_tree_object` stores for a
concrete one-file snapshot is persisted as indent-2 bytes; recomputing the
content hash over those exact persisted bytes does NOT yield the hash the
object is stored under (the hash was taken over the compact sorted
serialization instead), refuting the claim as stated. -/
theorem persisted_bytes_rehash_mismatch :
    lookupA (create_tree_object demoInit demoFiles).2.objects
        (create_tree_object demoInit demoFiles).1 = some (StoredObj.tree demoFiles)
    ∧ sha256HexStr (persistedBytes (StoredObj.tree demoFiles)) ≠
        (create_tree_object demoInit demoFiles).1 := by
  constructor
  · decide
  · decide

/-- C2 (amended).  The stored commit's `hash` field equals the content hash
of the canonical serialization of the commit dictionary in which the `hash`
key is PRESENT with value `""` (not excluded); the real hash is attached
only after this computation.  The same holds for the initial commit written
by `init`. -/
theorem commit_hash_over_empty_hash_field
    {t : RepoState} {m a e n h2 : String} {s2 : RepoState}
    (hc : commit t m a e n = (some h2, s2))
    (u : RepoState) (un ue now2 : String) (hu : is_initialized u = false) :
    (∃ c, lookupA s2.objects h2 = some (StoredObj.commit c)
        ∧ c.hash = h2
        ∧ h2 = sha256HexStr (dumpsCommitSorted { c with hash := "" }))
    ∧ ∃ c, lookupA ((init u un ue now2).2).objects
          (sha256HexStr (dumpsCommitSorted (initialCommitData now2))) =
            some (StoredObj.commit c)
        ∧ c.hash = sha256HexStr (dumpsCommitSorted { c with hash := "" }) := by
  constructor
  · obtain ⟨br, hti, htb, htne, hh, hs⟩ := commit_success_shape hc
    subst hs
    subst hh
    refine ⟨{ commitData0 t br m a e n with hash := commitHash t br m a e n },
      commitSuccState_lookup t br m a e n, rfl, ?_⟩
    rw [commitData0_reset_hash]
    rfl
  · have hini : (init u un ue now2).2.objects =
        upsertA u.objects (sha256HexStr (dumpsCommitSorted (initialCommitData now2)))
          (StoredObj.commit { initialCommitData now2 with
            hash := sha256HexStr (dumpsCommitSorted (initialCommitData now2)) }) := by
      simp [init, hu, create_initial_commit]
    refine ⟨{ initialCommitData now2 with
        hash := sha256HexStr (dumpsCommitSorted (initialCommitData now2)) }, ?_, rfl⟩
    rw [hini]
    exact lookupA_upsertA_self _ _ _

/-- Witness for C2 (amended): the demo commit and a fresh init. -/
theorem commit_hash_over_empty_hash_field_witness :
    ((commit demoAdded "first" "" "" "2024-01-01T00:00:02" =
       (some demoCommitHash, demoCommitRes.2)) ∧
     is_initialized demoFresh = false) ∧
    ((∃ c, lookupA demoCommitRes.2.objects demoCommitHash = some (StoredObj.commit c)
        ∧ c.hash = demoCommitHash
        ∧ demoCommitHash = sha256HexStr (dumpsCommitSorted { c with hash := "" }))
     ∧ ∃ c, lookupA ((init demoFresh "Ann" "ann@x.io" "2024-01-01T00:00:01").2).objects
          (sha256HexStr (dumpsCommitSorted (initialCommitData "2024-01-01T00:00:01"))) =
            some (StoredObj.commit c)
        ∧ c.hash = sha256HexStr (dumpsCommitSorted { c with hash := "" })) :=
  ⟨⟨by decide, rfl⟩,
   @commit_hash_over_empty_hash_field demoAdded "first" "" "" "2024-01-01T00:00:02"
     demoCommitHash demoCommitRes.2 (by decide)
     demoFresh "Ann" "ann@x.io" "2024-01-01T00:00:01" rfl⟩

/-- C2 counterexample: for the concrete root commit stored by `init`, the
stored hash does NOT equal the content hash of the serialization from which
the `hash` key is excluded altogether — the code hashes the dictionary with
the `hash` key present (value `""`), so the claim's "excluded from the
hashed form" reading is false on the code. -/
theorem commit_hash_not_over_hash_excluded_form :
    lookupA demoInit.objects demoRootHash = some (StoredObj.commit demoRootStored)
    ∧ demoRootStored.hash = demoRootHash
    ∧ demoRootStored.hash ≠ sha256HexStr (dumpsCommitSortedNoHash demoRootStored) := by
  refine ⟨by decide, by decide, by decide⟩

/-! ## C3: staging round-trip in `status` -/

/-- C3 (code bug).  Concrete evaluation of the failing input: after
`add(["a.txt"])` with the file unchanged, `status` lists `a.txt` as staged
AND lists the same file (under its absolute spelling `/repo/a.txt`) among
`modified_files`.  `get_tracked_files` enumerates absolute path strings
while the Staging Index is keyed by the relative path the caller passed to
`add`, so the membership test `file_path in staged_files` never matches and
the staged-and-unchanged file is still reported as modified, contrary to the
claim and to the spec's own scenario 4. -/
theorem staged_unmodified_file_reported_modified :
    status demoAdded = some
      { branch := some "main"
        staged_files := ["a.txt"]
        modified_files := ["/repo/a.txt", "/repo/b.txt"]
        total_tracked := 2
        total_staged := 1 } := by
  decide

/-! ## C5: what tree-hash determinism actually requires -/

/-- C5 counterexample: two staging snapshots whose path→hash mappings are
identical (same single key, same content hash) but whose records differ in
the `modified` timestamp produce DIFFERENT tree hashes, because
`_create_tree_object` serializes the full file records (size, mtime, path,
name, flags), not just the path→hash mapping. -/
theorem tree_hash_differs_for_equal_path_hash_maps :
    (demoFr "2024-01-01T00:00:00").hash = (demoFr "2024-02-02T00:00:00").hash
    ∧ (create_tree_object demoInit [("a.txt", demoFr "2024-01-01T00:00:00")]).1 ≠
        (create_tree_object demoInit [("a.txt", demoFr "2024-02-02T00:00:00")]).1 := by
  refine ⟨by decide, by decide⟩

/-- C5 (amended).  Two Staging Index snapshots whose path→file-record
mappings are identical (same keys mapped to the same full records —
content hash, size, mtime, name, path, flags — regardless of insertion
order) produce the same tree hash, because `_create_tree_object` serializes
the snapshot with `sort_keys=True` before hashing. -/
theorem tree_hash_insertion_order_independent
    (s t : RepoState) (l1 l2 : List (String × FileRecord))
    (hn1 : (l1.map Prod.fst).Nodup) (hn2 : (l2.map Prod.fst).Nodup)
    (hmem : ∀ kv, kv ∈ l1 ↔ kv ∈ l2) :
    (create_tree_object s l1).1 = (create_tree_object t l2).1 := by
  have d1 : l1.Nodup := hn1.of_map
  have d2 : l2.Nodup := hn2.of_map
  have hp : l1.Perm l2 := (List.perm_ext_iff_of_nodup d1 d2).mpr hmem
  have hs := sortByKey_eq_of_perm hp hn1
  show sha256HexStr (dumpsTreeSorted l1) = sha256HexStr (dumpsTreeSorted l2)
  unfold dumpsTreeSorted
  rw [hs]

/-- Witness for C5 (amended): the two-entry snapshot staged in both orders. -/
theorem tree_hash_insertion_order_independent_witness :
    ((demoL1.map Prod.fst).Nodup ∧ (demoL2.map Prod.fst).Nodup ∧
     ∀ kv, kv ∈ demoL1 ↔ kv ∈ demoL2) ∧
    (create_tree_object demoInit demoL1).1 = (create_tree_object demoInit demoL2).1 :=
  ⟨⟨by decide, by decide, fun kv => by simp [demoL1, demoL2]; tauto⟩,
   tree_hash_insertion_order_independent demoInit demoInit demoL1 demoL2
     (by decide) (by decide) (fun kv => by simp [demoL1, demoL2]; tauto)⟩

/-! ## C6: the configured identity is never read back -/

/-- C6 (code bug).  Concrete evaluation of the failing input: `init`
persisted `user.name = "Ann"`, yet a `commit` with no caller-supplied author
stamps the commit `"Unknown"` — `get_config` never parses the persisted
config (its parsing is an unimplemented TODO and it always returns the empty
defaults), so the middle tier of the claimed fallback chain can never
fire. -/
theorem commit_ignores_configured_identity :
    demoAdded.configUserName = "Ann"
    ∧ demoCommitRes.1.isSome = true
    ∧ (storedCommitAt demoCommitRes.2 demoCommitHash).author.name = "Unknown"
    ∧ (storedCommitAt demoCommitRes.2 demoCommitHash).committer.name = "Unknown" := by
  refine ⟨by decide, by decide, by decide, by decide⟩
